import Mathlib

/-!
Verification of the STAFFING career-planning application's data core.

The backing store is SQLite accessed through short-lived connections
(`Database._connect` in `src/db.py`).  We embed the database as an explicit
state record (`DBState`): each table is a list of rows in insertion order,
and each `INTEGER PRIMARY KEY AUTOINCREMENT` column is modelled by a
monotone counter (`next…Id`), matching SQLite's AUTOINCREMENT sequence.

A `with self._connect() as conn:` block in Python's `sqlite3` commits on
success and rolls back when a statement raises; `withConn` embeds exactly
that.  Note that `PRAGMA foreign_keys = ON` is executed only on the
initialisation connection (`_connect_and_init`); the pragma is
per-connection in SQLite and every later operation runs on a fresh
connection from `_connect`, so foreign-key actions (`ON DELETE CASCADE`,
`ON DELETE SET NULL`) are NOT enforced during normal operations.  The
operational definitions below therefore perform plain row deletes.
-/

/-- Row of the `scenarios` table (dataclass `Scenario` in `src/db.py`). -/
structure Scenario where
  id : Nat
  name : String
  year : Nat
  quarter : Nat
  start_date : String
  end_date : String
deriving DecidableEq

/-- Row of the `positions` table (dataclass `Position` in `src/db.py`). -/
structure Position where
  id : Nat
  scenario_id : Nat
  title : String
  department : String
  parent_position_id : Option Nat
deriving DecidableEq

/-- Row of the `employees` table (dataclass `Employee` in `src/db.py`). -/
structure Employee where
  id : Nat
  employee_code : String
  full_name : String
deriving DecidableEq

/-- Row of the `assignments` table (dataclass `Assignment` in `src/db.py`);
`end_date = none` is an open (currently active) assignment. -/
structure Assignment where
  id : Nat
  employee_id : Nat
  position_id : Nat
  start_date : String
  end_date : Option String
deriving DecidableEq

/-- The whole backing store: the four tables in row order plus the
AUTOINCREMENT counters. -/
structure DBState where
  scenarios : List Scenario
  positions : List Position
  employees : List Employee
  assignments : List Assignment
  nextScenarioId : Nat
  nextPositionId : Nat
  nextEmployeeId : Nat
  nextAssignmentId : Nat
deriving DecidableEq

/-- A freshly initialised database: empty tables, counters at 1 (SQLite
AUTOINCREMENT starts at 1). -/
def emptyDatabase : DBState :=
  { scenarios := [], positions := [], employees := [], assignments := []
    nextScenarioId := 1, nextPositionId := 1, nextEmployeeId := 1, nextAssignmentId := 1 }

/-- Errors surfaced by the backing store (`sqlite3.IntegrityError`). -/
inductive DBError where
  | constraintViolation
deriving DecidableEq

/-- Semantics of `with self._connect() as conn:` in `sqlite3`: the block's
statements run in one transaction; on success the transaction commits, on an
exception everything is rolled back (state unchanged) and the exception
propagates (returned as `some err`). -/
def withConn (body : DBState → Except DBError DBState) (st : DBState) : DBState × Option DBError :=
  match body st with
  | Except.ok st' => (st', none)
  | Except.error e => (st, some e)

/-- Zero-pad a month or day number to two digits, as `date.isoformat` does. -/
def pad2 (n : Nat) : String :=
  if n < 10 then "0" ++ toString n else toString n

/-- Rendering of `date(y, m, d).isoformat()` for the four-digit years used here. -/
def isoDate (y m d : Nat) : String :=
  toString y ++ "-" ++ pad2 m ++ "-" ++ pad2 d

/-- One row built by the loop body of `seed_quarter_scenarios`:
`start_month = (quarter - 1) * 3 + 1`, start = first of that month, end =
`date(year + 1, 1, 1)` when `start_month + 3 > 12` else first of month
`start_month + 3` (the `end.replace(day=1)` in the source is a no-op since
the day is already 1).  The row carries no id yet: the INSERT lets
AUTOINCREMENT assign one. -/
def quarterSeedRow (year quarter : Nat) : String × Nat × Nat × String × String :=
  let startMonth := (quarter - 1) * 3 + 1
  let startDate := isoDate year startMonth 1
  let endDate :=
    if startMonth + 3 > 12 then isoDate (year + 1) 1 1
    else isoDate year (startMonth + 3) 1
  ("FY" ++ toString year ++ " Q" ++ toString quarter, year, quarter, startDate, endDate)

/-- The full parameter list `scenarios` built by `seed_quarter_scenarios`:
`for year in range(current_year, current_year + years): for quarter in range(1, 5)`. -/
def seedRows (currentYear years : Nat) : List (String × Nat × Nat × String × String) :=
  ((List.range years).map (fun dy =>
    (List.range 4).map (fun i => quarterSeedRow (currentYear + dy) (i + 1)))).flatten

/-- Whether some scenario row already occupies the `(year, quarter)` key. -/
def hasScenarioKey (st : DBState) (year quarter : Nat) : Bool :=
  st.scenarios.any (fun s => s.year == year && s.quarter == quarter)

/-- Semantics of `INSERT OR IGNORE INTO scenarios ...`: with the `UNIQUE(year, quarter)`
constraint, a row whose key is already present is skipped (no insert, no
overwrite, AUTOINCREMENT untouched); otherwise the row is appended with the
next id. -/
def insertOrIgnoreScenario (st : DBState) (r : String × Nat × Nat × String × String) : DBState :=
  if hasScenarioKey st r.2.1 r.2.2.1 then st
  else
    { st with
      scenarios := st.scenarios ++
        [⟨st.nextScenarioId, r.1, r.2.1, r.2.2.1, r.2.2.2.1, r.2.2.2.2⟩]
      nextScenarioId := st.nextScenarioId + 1 }

/-- Embedding of `Database.seed_quarter_scenarios(years)`, with `date.today().year`
passed explicitly as `currentYear`.  The `executemany` runs all the
`INSERT OR IGNORE` statements in order inside one connection block; none of
them can raise, so the block always commits. -/
def seed_quarter_scenarios (currentYear years : Nat) (st : DBState) : DBState :=
  (seedRows currentYear years).foldl insertOrIgnoreScenario st

/-- The SQL sort key `ORDER BY department, title` (ascending lexicographic
comparison, first on the department string and then on the title). -/
def keyLe (a b : String × String) : Prop :=
  a.1 < b.1 ∨ (a.1 = b.1 ∧ a.2 ≤ b.2)

instance : DecidableRel keyLe := fun a b => by
  unfold keyLe; infer_instance

/-- Sort key of one position row. -/
def posKey (p : Position) : String × String :=
  (p.department, p.title)

/-- Ordering of position rows used by `list_positions`. -/
def posLe (p q : Position) : Prop :=
  keyLe (posKey p) (posKey q)

instance : DecidableRel posLe := fun p q => by
  unfold posLe; infer_instance

theorem keyLe_total (a b : String × String) : keyLe a b ∨ keyLe b a := by
  rcases lt_trichotomy a.1 b.1 with h | h | h
  · exact Or.inl (Or.inl h)
  · rcases le_total a.2 b.2 with h2 | h2
    · exact Or.inl (Or.inr ⟨h, h2⟩)
    · exact Or.inr (Or.inr ⟨h.symm, h2⟩)
  · exact Or.inr (Or.inl h)

theorem keyLe_trans {a b c : String × String} (hab : keyLe a b) (hbc : keyLe b c) :
    keyLe a c := by
  rcases hab with h1 | ⟨h1, h1'⟩
  · rcases hbc with h2 | ⟨h2, _⟩
    · exact Or.inl (lt_trans h1 h2)
    · exact Or.inl (h2 ▸ h1)
  · rcases hbc with h2 | ⟨h2, h2'⟩
    · exact Or.inl (h1 ▸ h2)
    · exact Or.inr ⟨h1.trans h2, le_trans h1' h2'⟩

instance : IsTotal Position posLe := ⟨fun p q => keyLe_total (posKey p) (posKey q)⟩

instance : IsTrans Position posLe := ⟨fun _ _ _ h h' => keyLe_trans h h'⟩

/-- Embedding of `Database.list_positions(scenario_id)`: the rows of `positions` with the
given `scenario_id`, ordered by `(department, title)` ascending
(`ORDER BY department, title`; SQLite's BINARY collation orders text by code
point, matching the lexicographic string order used here). -/
def list_positions (st : DBState) (sid : Nat) : List Position :=
  List.insertionSort posLe (st.positions.filter (fun p => p.scenario_id == sid))

/-- Embedding of `Database.add_position`: a plain INSERT; with foreign keys unenforced on
the operation connection, it always succeeds. -/
def add_position (sid : Nat) (title department : String) (parent : Option Nat)
    (st : DBState) : DBState :=
  { st with
    positions := st.positions ++ [⟨st.nextPositionId, sid, title, department, parent⟩]
    nextPositionId := st.nextPositionId + 1 }

/-- Embedding of `Database.add_employee`: `INSERT INTO employees (employee_code, full_name)`.
The `UNIQUE` constraint on `employee_code` makes the insert raise
`IntegrityError` when the code is already present; the error propagates
through the `with` block (which rolls back) to the caller — `db.py` has no
exception handler. -/
def add_employee (code fullName : String) (st : DBState) : DBState × Option DBError :=
  withConn (fun s =>
    if s.employees.any (fun e => e.employee_code == code) then
      Except.error DBError.constraintViolation
    else
      Except.ok { s with
        employees := s.employees ++ [⟨s.nextEmployeeId, code, fullName⟩]
        nextEmployeeId := s.nextEmployeeId + 1 }) st

/-- Effect of `UPDATE assignments SET end_date = ? WHERE employee_id = ? AND
end_date IS NULL` on one row. -/
def closeRow (eid : Nat) (d : String) (a : Assignment) : Assignment :=
  if a.employee_id = eid ∧ a.end_date = none then { a with end_date := some d } else a

/-- Embedding of `Database.move_employee(employee_id, new_position_id, start_date)`: one
connection block running the closing UPDATE and then the INSERT of the new
open assignment.  Both statements share the block's transaction, so they
commit together (or the block rolls back as a whole). -/
def move_employee (eid pid : Nat) (startDate : String) (st : DBState) :
    DBState × Option DBError :=
  withConn (fun s =>
    let s1 := { s with assignments := s.assignments.map (closeRow eid startDate) }
    Except.ok { s1 with
      assignments := s1.assignments ++ [⟨s1.nextAssignmentId, eid, pid, startDate, none⟩]
      nextAssignmentId := s1.nextAssignmentId + 1 }) st

/-- Embedding of `Database.delete_position(position_id)`: `DELETE FROM positions WHERE id = ?`
on a fresh connection.  Since `PRAGMA foreign_keys` is OFF on that
connection, the declared `ON DELETE SET NULL` on `parent_position_id` and the
`ON DELETE CASCADE` on `assignments.position_id` do not fire: only the
position row itself is removed. -/
def delete_position (pid : Nat) (st : DBState) : DBState :=
  { st with positions := st.positions.filter (fun p => !(p.id == pid)) }

/-- Embedding of `Database.delete_employee(employee_id)`: `DELETE FROM employees WHERE id = ?`
on a fresh connection.  Since `PRAGMA foreign_keys` is OFF on that
connection, the declared `ON DELETE CASCADE` on `assignments.employee_id`
does not fire: only the employee row is removed. -/
def delete_employee (eid : Nat) (st : DBState) : DBState :=
  { st with employees := st.employees.filter (fun e => !(e.id == eid)) }

/-- Boolean test for an open assignment of a given employee
(`employee_id = e AND end_date IS NULL`). -/
def isOpenFor (eid : Nat) (a : Assignment) : Bool :=
  a.employee_id == eid && a.end_date == none

/-- Python's `str.strip()`: drop leading and trailing whitespace from the
underlying character list. -/
def pyStrip (s : String) : String :=
  ⟨((s.data.dropWhile Char.isWhitespace).reverse.dropWhile Char.isWhitespace).reverse⟩

/-- Dictionary `position_by_id`, the comprehension mapping `position.id` to `position`,
followed by a `.get`: a Python dict comprehension keeps the last binding for
a duplicated key, which the left fold mirrors. -/
def positionById (ps : List Position) (i : Nat) : Option Position :=
  ps.foldl (fun acc p => if p.id = i then some p else acc) none

/-- Cache `self._positions_cache`, the comprehension mapping `position.title` to `position.id`
(built in `_refresh_positions` from `list_positions`). -/
def positionsCache (ps : List Position) : List (String × Nat) :=
  ps.map (fun p => (p.title, p.id))

/-- Python `dict.get` on an association list built left to right (later
bindings shadow earlier ones). -/
def dictGet (m : List (String × Nat)) (k : String) : Option Nat :=
  m.foldl (fun acc e => if e.1 = k then some e.2 else acc) none

/-- The `children` mapping of `_refresh_chart` at one key: iterating the
positions in order and appending each id under its `parent_position_id`
yields, per key, exactly the ids of the positions with that parent, in list
order. -/
def childrenFor (ps : List Position) (parent : Option Nat) : List Nat :=
  (ps.filter (fun p => p.parent_position_id == parent)).map (fun p => p.id)

/-- Sort key used for sibling lists:
`key=lambda pid: (position_by_id[pid].department, position_by_id[pid].title)`. -/
def keyOfId (ps : List Position) (i : Nat) : String × String :=
  match positionById ps i with
  | some p => (p.department, p.title)
  | none => ("", "")

/-- Ordering of sibling position ids by `(department, title)` of the
referenced position. -/
def chartIdLe (ps : List Position) (a b : Nat) : Prop :=
  keyLe (keyOfId ps a) (keyOfId ps b)

instance (ps : List Position) : DecidableRel (chartIdLe ps) := fun a b => by
  unfold chartIdLe; infer_instance

instance (ps : List Position) : IsTotal Nat (chartIdLe ps) :=
  ⟨fun a b => keyLe_total (keyOfId ps a) (keyOfId ps b)⟩

instance (ps : List Position) : IsTrans Nat (chartIdLe ps) :=
  ⟨fun _ _ _ h h' => keyLe_trans h h'⟩

/-- Sorting `child_ids.sort(key=...)` applied to the `children` entry of one parent
(an ascending stable sort, like Python's). -/
def sortedChildrenFor (ps : List Position) (parent : Option Nat) : List Nat :=
  List.insertionSort (chartIdLe ps) (childrenFor ps parent)

/-- A node of the rendered org-chart `Treeview`: its label text and its
child nodes in insertion order. -/
inductive ChartNode where
  | node (label : String) (children : List ChartNode)

/-- All labels appearing in a rendered tree (the node's own label and,
recursively, its descendants'). -/
def chartLabels : ChartNode → List String
  | ChartNode.node l cs => l :: (cs.attach.map (fun c => chartLabels c.1)).flatten
decreasing_by
  simp_wf
  have h := List.sizeOf_lt_of_mem c.2
  omega

/-- The label `f"{position.title} ({position.department})"` of
`_insert_chart_node` (the id always resolves in the source because child ids
come from the same position list; the `none` default is never reached). -/
def labelOfId (ps : List Position) (i : Nat) : String :=
  match positionById ps i with
  | some p => p.title ++ " (" ++ p.department ++ ")"
  | none => ""

/-- Embedding of `_insert_chart_node(node_id, ...)`: emit the node's label, then recurse on
`children.get(node_id, [])` (already sorted).  The recursion is bounded by
explicit fuel; a forest without parent cycles has depth at most the number
of positions, so the initial fuel `ps.length` used below never runs out on
well-formed data. -/
def insertChartNode (ps : List Position) : Nat → Nat → ChartNode
  | 0, i => ChartNode.node (labelOfId ps i) []
  | fuel + 1, i =>
      ChartNode.node (labelOfId ps i)
        ((sortedChildrenFor ps (some i)).map (insertChartNode ps fuel))

/-- Embedding of `_refresh_chart` on the current scenario's positions `ps` (the result of
`list_positions`) and the raw `Subchart Root` combo text: nothing is
rendered when there are no positions; a stripped selection that is neither
empty nor the sentinel `"(Full Org Chart)"` is resolved through
`_positions_cache` — unresolved means an empty forest, resolved means just
that subtree; otherwise every root (`parent_position_id` null) is rendered
as a top-level tree. -/
def refreshChart (ps : List Position) (rootValue : String) : List ChartNode :=
  if ps.isEmpty then []
  else
    let rootSelection := pyStrip rootValue
    if rootSelection ≠ "" ∧ rootSelection ≠ "(Full Org Chart)" then
      match dictGet (positionsCache ps) rootSelection with
      | none => []
      | some rootId => [insertChartNode ps ps.length rootId]
    else
      (sortedChildrenFor ps none).map (insertChartNode ps ps.length)

/-- Embedding of `CareerPlannerApp._combo_value_to_id(value, mapping)`: strip the text;
empty means no selection (`None`); otherwise `mapping.get(value)` — which is
also `None` when the text matches no key. -/
def combo_value_to_id (value : String) (mapping : List (String × Nat)) : Option Nat :=
  let v := pyStrip value
  if v = "" then none else dictGet mapping v

/-- The database call made by `CareerPlannerApp._add_position` once the
scenario is selected and title/department are non-empty: the parent combo
text is mapped through `_combo_value_to_id` over `_positions_cache` and the
result — possibly `None` — is inserted as `parent_position_id`. -/
def addPositionForm (st : DBState) (sid : Nat) (title department parentValue : String)
    (cache : List (String × Nat)) : DBState :=
  add_position sid title department (combo_value_to_id parentValue cache) st

/-- The labels emitted by `insertChartNode` at each fuel level, computed by
recursion on the fuel (a fuel-indexed evaluation of `chartLabels` on the
rendered tree; the two agree, see `chartLabels_insertChartNode`). -/
def labelsOfNode (ps : List Position) : Nat → Nat → List String
  | 0, i => [labelOfId ps i]
  | fuel + 1, i =>
      labelOfId ps i :: ((sortedChildrenFor ps (some i)).map (labelsOfNode ps fuel)).flatten

/-- A ledger state with one open assignment: employee 7 occupies position 10
since 2020-01-01. -/
def sampleLedgerDB : DBState :=
  { emptyDatabase with
    assignments := [⟨1, 7, 10, "2020-01-01", none⟩], nextAssignmentId := 2 }

/-- A hierarchy state: position 2 (`Analyst`) reports to position 1
(`Head`), both in scenario 1. -/
def sampleTreeDB : DBState :=
  { emptyDatabase with
    scenarios := [⟨1, "FY2024 Q1", 2024, 1, "2024-01-01", "2024-04-01"⟩]
    positions := [⟨1, 1, "Head", "Ops", none⟩, ⟨2, 1, "Analyst", "Ops", some 1⟩]
    nextScenarioId := 2, nextPositionId := 3 }

/-- A directory state: one employee (code `E001`) with one open assignment. -/
def sampleDirectoryDB : DBState :=
  { emptyDatabase with
    employees := [⟨1, "E001", "Ada"⟩], nextEmployeeId := 2
    assignments := [⟨1, 1, 5, "2024-01-01", none⟩], nextAssignmentId := 2 }

/-- A scenario store already holding a hand-inserted row for `(2024, 1)`
whose other fields differ from what seeding would generate. -/
def sampleScenarioDB : DBState :=
  { emptyDatabase with
    scenarios := [⟨42, "custom name", 2024, 1, "x", "y"⟩], nextScenarioId := 43 }

/-- The position list of `sampleTreeDB`'s scenario, as the chart tab reads
it. -/
def samplePositions : List Position :=
  [⟨1, 1, "Head", "Ops", none⟩, ⟨2, 1, "Analyst", "Ops", some 1⟩]

/- ------------------------------------------------------------------ -/
/- Helper lemmas                                                      -/
/- ------------------------------------------------------------------ -/

theorem isOpenFor_closeRow (eid : Nat) (d : String) (a : Assignment) :
    isOpenFor eid (closeRow eid d a) = false := by
  by_cases h : a.employee_id = eid ∧ a.end_date = none
  · simp [closeRow, h, isOpenFor]
  · simp only [closeRow, if_neg h, isOpenFor]
    rcases Decidable.em (a.employee_id = eid) with he | he
    · have hd : a.end_date ≠ none := fun hn => h ⟨he, hn⟩
      simp [he, hd]
    · simp [he]

theorem filter_open_map_closeRow (eid : Nat) (d : String) (l : List Assignment) :
    (l.map (closeRow eid d)).filter (isOpenFor eid) = [] := by
  apply List.filter_eq_nil_iff.2
  intro a ha
  rcases List.mem_map.1 ha with ⟨b, _, rfl⟩
  simp [isOpenFor_closeRow]

theorem filter_open_move (eid pid : Nat) (d : String) (st : DBState) :
    ((move_employee eid pid d st).1).assignments.filter (isOpenFor eid) =
      [⟨st.nextAssignmentId, eid, pid, d, none⟩] := by
  show (st.assignments.map (closeRow eid d) ++
      [(⟨st.nextAssignmentId, eid, pid, d, none⟩ : Assignment)]).filter (isOpenFor eid) = _
  rw [List.filter_append, filter_open_map_closeRow]
  simp [isOpenFor]

theorem closed_mem_move (eid pid : Nat) (d : String) (st : DBState) (a : Assignment)
    (ha : a ∈ st.assignments) (hopen : isOpenFor eid a = true) :
    { a with end_date := some d } ∈ ((move_employee eid pid d st).1).assignments := by
  show _ ∈ st.assignments.map (closeRow eid d) ++
      [(⟨st.nextAssignmentId, eid, pid, d, none⟩ : Assignment)]
  apply List.mem_append_left
  apply List.mem_map.2
  refine ⟨a, ha, ?_⟩
  have h : a.employee_id = eid ∧ a.end_date = none := by
    simpa [isOpenFor] using hopen
  simp [closeRow, h]

theorem hasScenarioKey_insertOrIgnore_self (st : DBState)
    (r : String × Nat × Nat × String × String) :
    hasScenarioKey (insertOrIgnoreScenario st r) r.2.1 r.2.2.1 = true := by
  by_cases h : hasScenarioKey st r.2.1 r.2.2.1
  · simp [insertOrIgnoreScenario, h]
  · simp only [insertOrIgnoreScenario, if_neg h]
    simp [hasScenarioKey, List.any_append]

theorem hasScenarioKey_insertOrIgnore_mono (st : DBState)
    (r : String × Nat × Nat × String × String) (y q : Nat)
    (h : hasScenarioKey st y q = true) :
    hasScenarioKey (insertOrIgnoreScenario st r) y q = true := by
  by_cases hr : hasScenarioKey st r.2.1 r.2.2.1
  · simpa [insertOrIgnoreScenario, hr] using h
  · simp only [insertOrIgnoreScenario, if_neg hr]
    simp only [hasScenarioKey, List.any_append] at h ⊢
    simp [h]

theorem hasScenarioKey_foldl_mono (l : List (String × Nat × Nat × String × String))
    (st : DBState) (y q : Nat) (h : hasScenarioKey st y q = true) :
    hasScenarioKey (l.foldl insertOrIgnoreScenario st) y q = true := by
  induction l generalizing st with
  | nil => simpa using h
  | cons r l ih =>
    rw [List.foldl_cons]
    exact ih _ (hasScenarioKey_insertOrIgnore_mono st r y q h)

theorem hasScenarioKey_foldl_of_mem (l : List (String × Nat × Nat × String × String))
    (r : String × Nat × Nat × String × String) :
    r ∈ l → ∀ st : DBState,
      hasScenarioKey (l.foldl insertOrIgnoreScenario st) r.2.1 r.2.2.1 = true := by
  induction l with
  | nil => intro hr; cases hr
  | cons a l ih =>
    intro hr st
    rw [List.foldl_cons]
    rcases List.mem_cons.1 hr with rfl | hmem
    · exact hasScenarioKey_foldl_mono l _ _ _ (hasScenarioKey_insertOrIgnore_self st r)
    · exact ih hmem _

theorem insertOrIgnore_of_hasScenarioKey (st : DBState)
    (r : String × Nat × Nat × String × String)
    (h : hasScenarioKey st r.2.1 r.2.2.1 = true) :
    insertOrIgnoreScenario st r = st := by
  simp [insertOrIgnoreScenario, h]

theorem foldl_insertOrIgnore_id (l : List (String × Nat × Nat × String × String))
    (st : DBState) (h : ∀ r ∈ l, hasScenarioKey st r.2.1 r.2.2.1 = true) :
    l.foldl insertOrIgnoreScenario st = st := by
  induction l with
  | nil => rfl
  | cons a l ih =>
    rw [List.foldl_cons, insertOrIgnore_of_hasScenarioKey st a (h a (by simp))]
    exact ih (fun r hr => h r (by simp [hr]))

/-- The rows of the scenario table holding the `(y, q)` key. -/
def scenarioKeyRows (st : DBState) (y q : Nat) : List Scenario :=
  st.scenarios.filter (fun s => s.year == y && s.quarter == q)

theorem scenarioKeyRows_insertOrIgnore (st : DBState)
    (r : String × Nat × Nat × String × String) (y q : Nat)
    (h : hasScenarioKey st y q = true) :
    scenarioKeyRows (insertOrIgnoreScenario st r) y q = scenarioKeyRows st y q := by
  by_cases hr : hasScenarioKey st r.2.1 r.2.2.1
  · rw [insertOrIgnore_of_hasScenarioKey st r hr]
  · have hk : ¬(r.2.1 = y ∧ r.2.2.1 = q) := by
      rintro ⟨rfl, rfl⟩
      exact hr h
    simp only [insertOrIgnoreScenario, if_neg hr, scenarioKeyRows, List.filter_append]
    have : (r.2.1 == y && r.2.2.1 == q) = false := by
      rcases Decidable.em (r.2.1 = y) with he | he
      · have : r.2.2.1 ≠ q := fun hq => hk ⟨he, hq⟩
        simp [he, this]
      · simp [he]
    simp [this]

theorem scenarioKeyRows_foldl (l : List (String × Nat × Nat × String × String))
    (st : DBState) (y q : Nat) (h : hasScenarioKey st y q = true) :
    scenarioKeyRows (l.foldl insertOrIgnoreScenario st) y q = scenarioKeyRows st y q := by
  induction l generalizing st with
  | nil => rfl
  | cons a l ih =>
    rw [List.foldl_cons]
    exact (ih _ (hasScenarioKey_insertOrIgnore_mono st a y q h)).trans
      (scenarioKeyRows_insertOrIgnore st a y q h)

/- ------------------------------------------------------------------ -/
/- Claim theorems                                                     -/
/- ------------------------------------------------------------------ -/

/-- Claim C1: after `move_employee(e, p, d)`, exactly one assignment of `e`
is open and it is the newly inserted `{e, p, d, null}` row; every assignment
of `e` that was open before the call — however many — is closed with
`end_date = d` (rows of other employees and already-closed rows pass through
`closeRow` unchanged).  In particular, two successive moves leave exactly
one open assignment, bound to the second position, and the first move's row
is closed at the second move's start date. -/
theorem move_employee_single_open :
    (∀ (eid pid : Nat) (d : String) (st : DBState),
      ((move_employee eid pid d st).1).assignments.filter (isOpenFor eid) =
        [⟨st.nextAssignmentId, eid, pid, d, none⟩] ∧
      ((move_employee eid pid d st).1).assignments =
        st.assignments.map (closeRow eid d) ++ [⟨st.nextAssignmentId, eid, pid, d, none⟩] ∧
      ∀ a ∈ st.assignments, isOpenFor eid a = true →
        { a with end_date := some d } ∈ ((move_employee eid pid d st).1).assignments) ∧
    (∀ (eid p1 p2 : Nat) (d1 d2 : String) (st : DBState),
      ((move_employee eid p2 d2 (move_employee eid p1 d1 st).1).1).assignments.filter
          (isOpenFor eid) =
        [⟨st.nextAssignmentId + 1, eid, p2, d2, none⟩] ∧
      (⟨st.nextAssignmentId, eid, p1, d1, some d2⟩ : Assignment) ∈
        ((move_employee eid p2 d2 (move_employee eid p1 d1 st).1).1).assignments) := by
  constructor
  · intro eid pid d st
    exact ⟨filter_open_move eid pid d st, rfl,
      fun a ha hopen => closed_mem_move eid pid d st a ha hopen⟩
  · intro eid p1 p2 d1 d2 st
    constructor
    · exact filter_open_move eid p2 d2 (move_employee eid p1 d1 st).1
    · apply closed_mem_move eid p2 d2 (move_employee eid p1 d1 st).1
        ⟨st.nextAssignmentId, eid, p1, d1, none⟩
      · show _ ∈ st.assignments.map (closeRow eid d1) ++
            [(⟨st.nextAssignmentId, eid, p1, d1, none⟩ : Assignment)]
        exact List.mem_append_right _ (List.mem_singleton.2 rfl)
      · simp [isOpenFor]

/-- Witness for C1: on a ledger whose single open assignment is
`⟨1, 7, 10, "2020-01-01", none⟩`, moving employee 7 to position 11 closes
that row at the move's start date. -/
theorem move_employee_single_open_witness :
    (⟨1, 7, 10, "2020-01-01", none⟩ : Assignment) ∈ sampleLedgerDB.assignments ∧
    isOpenFor 7 ⟨1, 7, 10, "2020-01-01", none⟩ = true ∧
    (⟨1, 7, 10, "2020-01-01", some "2024-04-01"⟩ : Assignment) ∈
      ((move_employee 7 11 "2024-04-01" sampleLedgerDB).1).assignments :=
  ⟨by decide, by decide,
    (move_employee_single_open.1 7 11 "2024-04-01" sampleLedgerDB).2.2
      ⟨1, 7, 10, "2020-01-01", none⟩ (by decide) (by decide)⟩

/-- Claim C2: `move_employee` is atomic — both statements run inside one
`with`-connection block, so for every call either the close step and the
insert step both take effect (and no error is reported) or the state is
returned unchanged together with the error; an effect of only the first
statement is impossible. -/
theorem move_employee_atomic (eid pid : Nat) (d : String) (st : DBState) :
    ((move_employee eid pid d st).2 = none ∧
      (move_employee eid pid d st).1 =
        { st with
          assignments := st.assignments.map (closeRow eid d) ++
            [⟨st.nextAssignmentId, eid, pid, d, none⟩]
          nextAssignmentId := st.nextAssignmentId + 1 }) ∨
    ((move_employee eid pid d st).2 ≠ none ∧ (move_employee eid pid d st).1 = st) :=
  Or.inl ⟨rfl, rfl⟩

/-- Claim C3 (evaluation of the code at the failing input): deleting
position 1, the parent of position 2, removes only the parent row; the child
keeps `parent_position_id = some 1` as a dangling reference instead of having
it cleared to null.  The schema's `ON DELETE SET NULL` never fires because
`PRAGMA foreign_keys` is per-connection and only the initialisation
connection enables it. -/
theorem delete_position_keeps_child_parent :
    (delete_position 1 sampleTreeDB).positions = [⟨2, 1, "Analyst", "Ops", some 1⟩] := by
  decide

/-- Claim C4 (evaluation of the code at the failing input): deleting
employee 1 removes the employee row but leaves the employee's assignment in
the ledger.  The schema's `ON DELETE CASCADE` on `assignments.employee_id`
never fires because `PRAGMA foreign_keys` is per-connection and only the
initialisation connection enables it. -/
theorem delete_employee_keeps_assignments :
    (delete_employee 1 sampleDirectoryDB).employees = [] ∧
    (delete_employee 1 sampleDirectoryDB).assignments = [⟨1, 1, 5, "2024-01-01", none⟩] := by
  decide

/-- Claim C6: seeding one year in 2024 against an empty scenario store
produces exactly `FY2024 Q1..Q4` with exclusive quarter-end dates, the last
quarter ending on the first day of the following year. -/
theorem seed_one_year_2024_exact :
    (seed_quarter_scenarios 2024 1 emptyDatabase).scenarios =
      [⟨1, "FY2024 Q1", 2024, 1, "2024-01-01", "2024-04-01"⟩,
       ⟨2, "FY2024 Q2", 2024, 2, "2024-04-01", "2024-07-01"⟩,
       ⟨3, "FY2024 Q3", 2024, 3, "2024-07-01", "2024-10-01"⟩,
       ⟨4, "FY2024 Q4", 2024, 4, "2024-10-01", "2025-01-01"⟩] := by
  decide

/-- Claim C9: inserting an employee whose `employee_code` is already present
violates the UNIQUE constraint: the call returns the `ConstraintViolation`
to the caller (the data layer installs no handler) and the state — in
particular the employee table — is unchanged. -/
theorem add_employee_duplicate_code_fails (code fullName : String) (st : DBState)
    (h : ∃ e ∈ st.employees, e.employee_code = code) :
    add_employee code fullName st = (st, some DBError.constraintViolation) := by
  have hb : st.employees.any (fun e => e.employee_code == code) = true :=
    List.any_eq_true.2 (by obtain ⟨e, he, hc⟩ := h; exact ⟨e, he, by simp [hc]⟩)
  simp [add_employee, withConn, hb]

/-- Witness for C9: adding a second employee with code `E001` fails and
leaves the store unchanged. -/
theorem add_employee_duplicate_code_fails_witness :
    (∃ e ∈ sampleDirectoryDB.employees, e.employee_code = "E001") ∧
    add_employee "E001" "Grace" sampleDirectoryDB =
      (sampleDirectoryDB, some DBError.constraintViolation) :=
  ⟨by decide, add_employee_duplicate_code_fails "E001" "Grace" sampleDirectoryDB (by decide)⟩

/-- Claim C10 (implicit behaviour): when the position form's parent field
holds non-empty text that matches no title in the cached position mapping,
`_combo_value_to_id` returns `None` and the position is inserted as a root
(`parent_position_id = null`) — silently, with no error and no report of the
failed lookup. -/
theorem add_position_unmatched_parent_silently_root (st : DBState) (sid : Nat)
    (title department parentValue : String) (cache : List (String × Nat))
    (hne : pyStrip parentValue ≠ "") (hmiss : dictGet cache (pyStrip parentValue) = none) :
    addPositionForm st sid title department parentValue cache =
      { st with
        positions := st.positions ++ [⟨st.nextPositionId, sid, title, department, none⟩]
        nextPositionId := st.nextPositionId + 1 } := by
  simp [addPositionForm, combo_value_to_id, hne, hmiss, add_position]

/-- Witness for C10: parent text `Committee` matches nothing in a cache that
only knows `Head`; the new position is stored with a null parent. -/
theorem add_position_unmatched_parent_silently_root_witness :
    pyStrip "Committee" ≠ "" ∧ dictGet [("Head", 1)] (pyStrip "Committee") = none ∧
    addPositionForm emptyDatabase 1 "Clerk" "Ops" "Committee" [("Head", 1)] =
      { emptyDatabase with positions := [⟨1, 1, "Clerk", "Ops", none⟩], nextPositionId := 2 } :=
  ⟨by decide, by decide,
    (add_position_unmatched_parent_silently_root emptyDatabase 1 "Clerk" "Ops" "Committee"
      [("Head", 1)] (by decide) (by decide)).trans (by decide)⟩

/-- Claim C5: seeding is idempotent — running `seed_quarter_scenarios` twice
with the same current year yields exactly the state of running it once; and
a scenario already present for a `(year, quarter)` key is left untouched:
after seeding, the rows holding that key are exactly the rows that held it
before (no duplicate insert, no overwrite). -/
theorem seed_quarter_scenarios_idempotent :
    (∀ (currentYear years : Nat) (st : DBState),
      seed_quarter_scenarios currentYear years (seed_quarter_scenarios currentYear years st) =
        seed_quarter_scenarios currentYear years st) ∧
    (∀ (currentYear years : Nat) (st : DBState) (y q : Nat),
      hasScenarioKey st y q = true →
      scenarioKeyRows (seed_quarter_scenarios currentYear years st) y q =
        scenarioKeyRows st y q) := by
  constructor
  · intro cy n st
    exact foldl_insertOrIgnore_id _ _
      (fun r hr => hasScenarioKey_foldl_of_mem (seedRows cy n) r hr st)
  · intro cy n st y q h
    exact scenarioKeyRows_foldl _ st y q h

/-- Witness for C5: the hand-inserted `(2024, 1)` row of `sampleScenarioDB`
survives a seeding pass for 2024 unchanged, with no duplicate added. -/
theorem seed_quarter_scenarios_idempotent_witness :
    hasScenarioKey sampleScenarioDB 2024 1 = true ∧
    scenarioKeyRows (seed_quarter_scenarios 2024 1 sampleScenarioDB) 2024 1 =
      [⟨42, "custom name", 2024, 1, "x", "y"⟩] :=
  ⟨by decide,
    (seed_quarter_scenarios_idempotent.2 2024 1 sampleScenarioDB 2024 1 (by decide)).trans
      (by decide)⟩

/-- Claim C7: `list_positions` returns the scenario's position rows (a
permutation of the table rows carrying that `scenario_id`) sorted ascending
by the `(department, title)` key, and the chart rendering sorts every
sibling list by the same key. -/
theorem list_positions_sorted_and_sibling_sort (st : DBState) (sid : Nat) :
    List.Sorted posLe (list_positions st sid) ∧
    (list_positions st sid).Perm (st.positions.filter (fun p => p.scenario_id == sid)) ∧
    ∀ parent : Option Nat,
      List.Sorted (chartIdLe (list_positions st sid))
        (sortedChildrenFor (list_positions st sid) parent) :=
  ⟨List.sorted_insertionSort posLe _, List.perm_insertionSort posLe _,
    fun _ => List.sorted_insertionSort (chartIdLe _) _⟩

theorem foldl_pick_spec {α β : Type} (p : α → Prop) [DecidablePred p] (g : α → β)
    (l : List α) : ∀ acc : Option β,
    (l.foldl (fun a x => if p x then some (g x) else a) acc = acc ∧ ∀ x ∈ l, ¬ p x) ∨
    ∃ x ∈ l, l.foldl (fun a x => if p x then some (g x) else a) acc = some (g x) ∧ p x := by
  induction l with
  | nil => intro acc; exact Or.inl ⟨rfl, by simp⟩
  | cons y l ih =>
    intro acc
    rw [List.foldl_cons]
    by_cases hy : p y
    · rw [if_pos hy]
      rcases ih (some (g y)) with ⟨heq, _⟩ | ⟨x, hx, heq, hpx⟩
      · exact Or.inr ⟨y, by simp, heq, hy⟩
      · exact Or.inr ⟨x, by simp [hx], heq, hpx⟩
    · rw [if_neg hy]
      rcases ih acc with ⟨heq, hall⟩ | ⟨x, hx, heq, hpx⟩
      · refine Or.inl ⟨heq, ?_⟩
        intro x hx
        rcases List.mem_cons.1 hx with rfl | hm
        · exact hy
        · exact hall x hm
      · exact Or.inr ⟨x, by simp [hx], heq, hpx⟩

theorem positionById_resolve (ps : List Position) (i : Nat)
    (h : ∃ p ∈ ps, p.id = i) :
    ∃ q ∈ ps, positionById ps i = some q ∧ q.id = i := by
  rcases foldl_pick_spec (fun p : Position => p.id = i) (fun p => p) ps none with
    ⟨_, hall⟩ | ⟨x, hx, heq, hpx⟩
  · obtain ⟨p, hp, hpi⟩ := h
    exact absurd hpi (hall p hp)
  · exact ⟨x, hx, heq, hpx⟩

theorem dictGet_resolve (m : List (String × Nat)) (k : String) (v : Nat)
    (h : dictGet m k = some v) : ∃ e ∈ m, e.1 = k ∧ e.2 = v := by
  rcases foldl_pick_spec (fun e : String × Nat => e.1 = k) (fun e => e.2) m none with
    ⟨heq, _⟩ | ⟨x, hx, heq, hpx⟩
  · have h' : (m.foldl (fun a e => if e.1 = k then some e.2 else a) none) = some v := h
    rw [heq] at h'
    cases h'
  · have h' : (m.foldl (fun a e => if e.1 = k then some e.2 else a) none) = some v := h
    rw [heq] at h'
    exact ⟨x, hx, hpx, Option.some.inj h'⟩

theorem childrenFor_resolve (ps : List Position) (parent : Option Nat) (j : Nat)
    (hj : j ∈ childrenFor ps parent) : ∃ p ∈ ps, p.id = j := by
  rcases List.mem_map.1 hj with ⟨p, hp, rfl⟩
  exact ⟨p, (List.mem_filter.1 hp).1, rfl⟩

theorem sortedChildrenFor_resolve (ps : List Position) (parent : Option Nat) (j : Nat)
    (hj : j ∈ sortedChildrenFor ps parent) : ∃ p ∈ ps, p.id = j :=
  childrenFor_resolve ps parent j ((List.mem_insertionSort _).1 hj)

theorem labelOfId_fmt (ps : List Position) (i : Nat) (h : ∃ p ∈ ps, p.id = i) :
    ∃ p ∈ ps, labelOfId ps i = p.title ++ " (" ++ p.department ++ ")" := by
  obtain ⟨q, hq, hq2, _⟩ := positionById_resolve ps i h
  exact ⟨q, hq, by simp [labelOfId, hq2]⟩

theorem labelsOfNode_fmt (ps : List Position) :
    ∀ (fuel i : Nat), (∃ p ∈ ps, p.id = i) →
      ∀ l ∈ labelsOfNode ps fuel i,
        ∃ p ∈ ps, l = p.title ++ " (" ++ p.department ++ ")" := by
  intro fuel
  induction fuel with
  | zero =>
    intro i hi l hl
    simp only [labelsOfNode, List.mem_singleton] at hl
    obtain ⟨p, hp, hfmt⟩ := labelOfId_fmt ps i hi
    exact ⟨p, hp, hl ▸ hfmt⟩
  | succ fuel ih =>
    intro i hi l hl
    simp only [labelsOfNode, List.mem_cons] at hl
    rcases hl with rfl | hl
    · exact labelOfId_fmt ps i hi
    · rw [List.mem_flatten] at hl
      obtain ⟨sub, hsub, hlsub⟩ := hl
      rcases List.mem_map.1 hsub with ⟨j, hj, rfl⟩
      exact ih j (sortedChildrenFor_resolve ps (some i) j hj) l hlsub

theorem chartLabels_insertChartNode (ps : List Position) :
    ∀ (fuel i : Nat), chartLabels (insertChartNode ps fuel i) = labelsOfNode ps fuel i := by
  intro fuel
  induction fuel with
  | zero =>
    intro i
    simp [insertChartNode, chartLabels, labelsOfNode]
  | succ fuel ih =>
    intro i
    simp only [insertChartNode, labelsOfNode]
    rw [chartLabels]
    congr 1
    rw [List.attach_map_val, List.map_map]
    congr 1
    exact congrArg (fun f => List.map f (sortedChildrenFor ps (some i))) (funext ih)

/-- Claim C8: with the root selection blank or equal to the sentinel
`"(Full Org Chart)"`, the chart renders one top-level tree per position with
a null `parent_position_id`; a non-sentinel, non-empty selection resolving
through the title cache renders exactly that position's subtree; an
unresolved selection renders an empty forest; and every rendered node's
label is `"{title} ({department})"` of some position of the scenario. -/
theorem refreshChart_cases (ps : List Position) (rootValue : String) :
    ((pyStrip rootValue = "" ∨ pyStrip rootValue = "(Full Org Chart)") →
      (refreshChart ps rootValue).length =
        (ps.filter (fun p => p.parent_position_id == (none : Option Nat))).length) ∧
    (∀ rid : Nat, pyStrip rootValue ≠ "" → pyStrip rootValue ≠ "(Full Org Chart)" →
      dictGet (positionsCache ps) (pyStrip rootValue) = some rid →
      refreshChart ps rootValue = [insertChartNode ps ps.length rid]) ∧
    (pyStrip rootValue ≠ "" → pyStrip rootValue ≠ "(Full Org Chart)" →
      dictGet (positionsCache ps) (pyStrip rootValue) = none →
      refreshChart ps rootValue = []) ∧
    (∀ t ∈ refreshChart ps rootValue, ∀ l ∈ chartLabels t,
      ∃ p ∈ ps, l = p.title ++ " (" ++ p.department ++ ")") := by
  refine ⟨?_, ?_, ?_, ?_⟩
  · intro h
    have hcond : ¬(pyStrip rootValue ≠ "" ∧ pyStrip rootValue ≠ "(Full Org Chart)") := by
      rcases h with h | h <;> simp [h]
    cases hps : ps.isEmpty
    · simp only [refreshChart, hps, Bool.false_eq_true, if_false, if_neg hcond]
      rw [List.length_map, sortedChildrenFor, List.length_insertionSort, childrenFor,
        List.length_map]
    · have : ps = [] := List.isEmpty_iff.1 hps
      subst this
      simp [refreshChart]
  · intro rid h1 h2 hget
    have hps : ps.isEmpty = false := by
      cases ps with
      | nil => simp [positionsCache, dictGet] at hget
      | cons a l => rfl
    simp only [refreshChart, hps, Bool.false_eq_true, if_false]
    rw [if_pos ⟨h1, h2⟩, hget]
  · intro h1 h2 hget
    cases hps : ps.isEmpty
    · simp only [refreshChart, hps, Bool.false_eq_true, if_false]
      rw [if_pos ⟨h1, h2⟩, hget]
    · simp [refreshChart, hps]
  · intro t ht l hl
    by_cases hps : ps.isEmpty
    · simp [refreshChart, hps] at ht
    · by_cases hcond : pyStrip rootValue ≠ "" ∧ pyStrip rootValue ≠ "(Full Org Chart)"
      · cases hget : dictGet (positionsCache ps) (pyStrip rootValue) with
        | none => simp [refreshChart, hps, if_pos hcond, hget] at ht
        | some rid =>
          rw [refreshChart, if_neg (by simp [hps]), if_pos hcond, hget,
            List.mem_singleton] at ht
          subst ht
          rw [chartLabels_insertChartNode] at hl
          have hrid : ∃ p ∈ ps, p.id = rid := by
            obtain ⟨e, he, _, hev⟩ := dictGet_resolve _ _ _ hget
            rcases List.mem_map.1 he with ⟨p, hp, rfl⟩
            exact ⟨p, hp, hev⟩
          exact labelsOfNode_fmt ps ps.length rid hrid l hl
      · rw [refreshChart, if_neg (by simp [hps]), if_neg hcond] at ht
        rcases List.mem_map.1 ht with ⟨j, hj, rfl⟩
        rw [chartLabels_insertChartNode] at hl
        exact labelsOfNode_fmt ps ps.length j (sortedChildrenFor_resolve ps none j hj) l hl

/-- Witness for C8: on the two-position hierarchy `samplePositions`, the
sentinel renders one tree per root, the title `Analyst` renders only that
subtree, and the unknown title `Ghost` renders nothing. -/
theorem refreshChart_cases_witness :
    ((pyStrip "(Full Org Chart)" = "" ∨ pyStrip "(Full Org Chart)" = "(Full Org Chart)") ∧
      (refreshChart samplePositions "(Full Org Chart)").length =
        (samplePositions.filter (fun p => p.parent_position_id == (none : Option Nat))).length) ∧
    (pyStrip "Analyst" ≠ "" ∧ pyStrip "Analyst" ≠ "(Full Org Chart)" ∧
      dictGet (positionsCache samplePositions) (pyStrip "Analyst") = some 2 ∧
      refreshChart samplePositions "Analyst" = [insertChartNode samplePositions 2 2]) ∧
    (pyStrip "Ghost" ≠ "" ∧ pyStrip "Ghost" ≠ "(Full Org Chart)" ∧
      dictGet (positionsCache samplePositions) (pyStrip "Ghost") = none ∧
      refreshChart samplePositions "Ghost" = []) :=
  ⟨⟨Or.inr (by decide),
      (refreshChart_cases samplePositions "(Full Org Chart)").1 (Or.inr (by decide))⟩,
   ⟨by decide, by decide, by decide,
      (refreshChart_cases samplePositions "Analyst").2.1 2 (by decide) (by decide) (by decide)⟩,
   ⟨by decide, by decide, by decide,
      (refreshChart_cases samplePositions "Ghost").2.2.1 (by decide) (by decide) (by decide)⟩⟩
